import Mathlib

/-!
Verification of the chart-rendering pipeline of `stock_chart_generator.py`
(repository `br4yd/stockchart-to-image`).

The embedding follows the source file `src/stock_chart_generator.py`:

* `fetchStockData`       models `fetch_stock_data` lines 45-59 (`dropna(subset=['close'])`
                    followed by `sort_values('date')`, `None` on an empty result);
* the spline block  models `generate_chart` lines 96-99 (`CubicSpline(...,
                    bc_type='natural')` on `(x_index, close)` knots, evaluated on
                    `np.linspace(x[0], x[-1], len(x)*5)`);
* day labels        model lines 111-133 (one boundary per calendar-day change,
                    anchor at midpoints, every label kept);
* the badge         models lines 204-271 (previous-day reference close, direction,
                    colors, text ordering, `Circle` geometry);
* `generate`        models the `generate` driver, lines 336-377.

Machine floats are modelled by exact rationals (`ℚ`), timestamps by integers
(minutes since an epoch); the calendar date of a timestamp is its day number
`t / 1440`, a monotone function of the timestamp, which is all the source uses
of `.dt.date`.
-/

namespace StockChart

/-- A raw OHLC row as consumed by `fetch_stock_data`: a timestamp in minutes
and a possibly missing close (`NaN` is modelled by `none`). The other columns
(open/high/low/volume) are carried by the real frame but never read by the
rendering code, so they are omitted from the model. -/
structure RawRow where
  time : ℤ
  close : Option ℚ
deriving DecidableEq

/-- A cleaned price point: timestamp (minutes) and close. -/
structure Point where
  time : ℤ
  close : ℚ
deriving DecidableEq

instance : Inhabited Point := ⟨⟨0, 0⟩⟩

/-- Calendar date of a timestamp, as a day number (`.dt.date` in the source:
a monotone map from timestamps to calendar days; 1440 minutes per day). -/
def dayOf (t : ℤ) : ℤ := t / 1440

/-- Ordering of points by timestamp, the key of `sort_values('date')`. -/
def timeLE (a b : Point) : Prop := a.time ≤ b.time

instance : DecidableRel timeLE := fun a b => inferInstanceAs (Decidable (a.time ≤ b.time))

instance : IsTotal Point timeLE := ⟨fun a b => Int.le_total a.time b.time⟩

instance : IsTrans Point timeLE := ⟨fun _ _ _ hab hbc => Int.le_trans hab hbc⟩

/-- `fetch_stock_data` lines 53-57: drop rows whose close is missing
(`dropna(subset=['close'])`), sort ascending by timestamp
(`sort_values('date')`), and return `None` when nothing is left.
`sort_values` pins no order among equal keys; the model uses a stable sort. -/
def fetchStockData (rows : List RawRow) : Option (List Point) :=
  let kept := rows.filterMap (fun r => r.close.map (fun c => Point.mk r.time c))
  let sorted := kept.insertionSort timeLE
  if sorted.isEmpty then none else some sorted

/-- The close column of a series (`data['close'].values`). -/
def closes (s : List Point) : List ℚ := s.map Point.close

/-- `closes.min()` on the nonempty close column. -/
def yMin (s : List Point) : ℚ := ((closes s).min?).getD 0

/-- `closes.max()` on the nonempty close column. -/
def yMax (s : List Point) : ℚ := ((closes s).max?).getD 0

/-- `y_range = y_max - y_min` (line 185). -/
def yRange (s : List Point) : ℚ := yMax s - yMin s

/-- The `x_index` column: `data['x_index'] = range(len(data))` (line 90). -/
def xIndexColumn (s : List Point) : List ℕ := List.range s.length

/-! ### Natural cubic spline (`CubicSpline(x_indices, closes, bc_type='natural')`)

Knots are the integer indices `0, …, n-1` (spacing `h = 1`).  The interior
second derivatives `M₁, …, M_{n-2}` solve the tridiagonal system
`M_{i-1} + 4·M_i + M_{i+1} = 6·(y_{i-1} - 2·y_i + y_{i+1})`, and the natural
boundary condition fixes `M₀ = M_{n-1} = 0`.  The solver below is the Thomas
algorithm, in exact rational arithmetic. -/

/-- Right-hand sides of the interior equations of the natural-spline system. -/
def rhsList (ys : List ℚ) : List ℚ :=
  (List.range (ys.length - 2)).map
    (fun j => 6 * (ys.getD j 0 - 2 * ys.getD (j + 1) 0 + ys.getD (j + 2) 0))

/-- Thomas algorithm, forward sweep, for the tridiagonal matrix with constant
diagonals `(1, 4, 1)`: carries the previous modified coefficient and rhs. -/
def thomasFwd : List ℚ → ℚ → ℚ → List (ℚ × ℚ)
  | [], _, _ => []
  | r :: rs, cp, dp =>
    let denom := 4 - cp
    let c := 1 / denom
    let d := (r - dp) / denom
    (c, d) :: thomasFwd rs c d

/-- Thomas algorithm, back substitution, over the reversed forward sweep. -/
def thomasBack : List (ℚ × ℚ) → ℚ → List ℚ
  | [], _ => []
  | (c, d) :: rest, mNext =>
    let m := d - c * mNext
    m :: thomasBack rest m

/-- Solve the `(1,4,1)`-tridiagonal system for the given right-hand sides. -/
def thomasSolve (rs : List ℚ) : List ℚ :=
  (thomasBack (thomasFwd rs 0 0).reverse 0).reverse

/-- All second-derivative values `M₀, …, M_{n-1}` of the natural cubic spline:
zero at both endpoints (the natural boundary condition), Thomas solution in
the interior. -/
def secondDerivs (ys : List ℚ) : List ℚ :=
  0 :: (thomasSolve (rhsList ys) ++ [0])

/-- Index of the spline piece used to evaluate at `x`: the knot interval
`[i, i+1]` containing `x`, clamped to `0 … n-2`. -/
def segIdx (n : ℕ) (x : ℚ) : ℕ := min (max ⌊x⌋ 0).toNat (n - 2)

/-- Evaluate the natural cubic spline through `(i, ys[i])` at `x`.  On piece
`i` the cubic is `yᵢ + b·t + (Mᵢ/2)·t² + ((Mᵢ₊₁-Mᵢ)/6)·t³` with `t = x - i`
and `b = (yᵢ₊₁ - yᵢ) - (2·Mᵢ + Mᵢ₊₁)/6` (unit knot spacing). -/
def splineEval (ys : List ℚ) (x : ℚ) : ℚ :=
  let M := secondDerivs ys
  let i := segIdx ys.length x
  let yi := ys.getD i 0
  let yi1 := ys.getD (i + 1) 0
  let mi := M.getD i 0
  let mi1 := M.getD (i + 1) 0
  let b := (yi1 - yi) - (2 * mi + mi1) / 6
  let t := x - (i : ℚ)
  yi + b * t + (mi / 2) * t ^ 2 + ((mi1 - mi) / 6) * t ^ 3

/-- Second derivative of the evaluated spline piece at `x`:
`d²/dx² (yᵢ + b·t + (Mᵢ/2)·t² + ((Mᵢ₊₁-Mᵢ)/6)·t³) = Mᵢ + (Mᵢ₊₁-Mᵢ)·t`. -/
def splineSecondDeriv (ys : List ℚ) (x : ℚ) : ℚ :=
  let M := secondDerivs ys
  let i := segIdx ys.length x
  let mi := M.getD i 0
  let mi1 := M.getD (i + 1) 0
  mi + (mi1 - mi) * (x - (i : ℚ))

/-- `np.linspace a b m`: `m` evenly spaced values from `a` to `b`, both
endpoints included. -/
def linspace (a b : ℚ) (m : ℕ) : List ℚ :=
  (List.range m).map (fun (i : ℕ) => a + (b - a) * (i : ℚ) / ((m : ℚ) - 1))

/-- The fixed oversampling multiplier of line 98 (`len(x_indices) * 5`). -/
def oversampleFactor : ℕ := 5

/-- The spline evaluation grid of line 98:
`np.linspace(x_indices[0], x_indices[-1], len(x_indices) * 5)`. -/
def smoothGrid (s : List Point) : List ℚ :=
  linspace 0 ((s.length : ℚ) - 1) (s.length * oversampleFactor)

/-! ### Day boundaries and labels (`generate_chart` lines 111-133)

The source walks the rows in order and records `(x_index, label)` whenever the
calendar date differs from the previous row's date; the first row always
starts a boundary.  A label's text is derived from the boundary row's date
(`strftime('%d %b')`), modelled here by the calendar-day number itself.
Anchor positions are midpoints; the source sets every anchor as an x-tick:
no label is ever dropped. -/

/-- Calendar day of every point, in series order (`data['date_pd'].dt.date`). -/
def days (s : List Point) : List ℤ := s.map (fun p => dayOf p.time)

/-- The boundary-collecting loop of lines 115-121: position counter, the
`current_date` register, remaining day column; emits `(x_index, day)` pairs. -/
def boundariesAux : ℕ → Option ℤ → List ℤ → List (ℕ × ℤ)
  | _, _, [] => []
  | i, cur, d :: rest =>
    if cur = some d then boundariesAux (i + 1) (some d) rest
    else (i, d) :: boundariesAux (i + 1) (some d) rest

/-- All day boundaries of a series: index of the first point of each calendar
day, paired with that day. -/
def dayBoundaryList (s : List Point) : List (ℕ × ℤ) :=
  boundariesAux 0 none (days s)

/-- The day label texts, one per boundary, modelled by the day number. -/
def boundaryDays (s : List Point) : List ℤ := (dayBoundaryList s).map Prod.snd

/-- Calendar day of the final point of the series. -/
def finalDay (s : List Point) : ℤ := dayOf ((s.getLast?).getD default).time

/-- The anchor loop of lines 123-129: midpoint of consecutive boundaries, and
for the last boundary the midpoint with the final index `len(data) - 1`. -/
def anchorsAux (n : ℕ) : List ℕ → List ℚ
  | [] => []
  | [b] => [((b : ℚ) + (n : ℚ) - 1) / 2]
  | b :: b' :: rest => (((b : ℚ) + (b' : ℚ)) / 2) :: anchorsAux n (b' :: rest)

/-- Anchor positions of all day labels. -/
def labelAnchors (s : List Point) : List ℚ :=
  anchorsAux s.length ((dayBoundaryList s).map Prod.fst)

/-- The anchors the source actually sets as ticks (line 131): all of them —
the source applies no collision filtering. -/
def codeKeptAnchors (s : List Point) : List ℚ := labelAnchors s

/-- The collision-avoidance pass the specification describes (stated for
comparison with `codeKeptAnchors`; the source has no such pass): iterate
anchors in order, keep the last unconditionally, keep any other only when it
is at least `d` beyond the most recently kept anchor. -/
def collisionFilterAux (d : ℚ) : ℚ → List ℚ → List ℚ
  | _, [] => []
  | _, [a] => [a]
  | lastKept, a :: b :: rest =>
    if d ≤ a - lastKept then a :: collisionFilterAux d a (b :: rest)
    else collisionFilterAux d lastKept (b :: rest)

/-- Collision filter over a full anchor list: the first anchor has no prior
kept anchor and is kept. -/
def collisionFilter (d : ℚ) : List ℚ → List ℚ
  | [] => []
  | a :: rest => a :: collisionFilterAux d a rest

/-! ### Price-change indicator badge (`generate_chart` lines 204-271) -/

/-- Vertical ordering of the three text lines inside the badge. -/
inductive TextOrder where
  | arrowAboveDateBelow
  | dateAboveArrowBelow
deriving DecidableEq

/-- Badge color when the price did not fall (`'#00CC00'`, line 217). -/
def upColor : String := "#00CC00"

/-- Badge color when the price fell (`'#FF8C00'`, line 217). -/
def downColor : String := "#FF8C00"

/-- The indicator badge: direction flag, color, text ordering, reference
price, and the `Circle` geometry of lines 234-244 (a single data-space radius
used for both axes). -/
structure Badge where
  priceIncreased : Bool
  color : String
  order : TextOrder
  refPrice : ℚ
  centerX : ℚ
  centerY : ℚ
  radius : ℚ
  priceText : ℚ
  dateDay : ℤ
deriving DecidableEq

/-- Points whose calendar date is strictly earlier than the final point's date
(`data[data['date_pd'].dt.date < last_date]`, line 211). -/
def prevDayPoints (s : List Point) : List Point :=
  s.filter (fun p => dayOf p.time < finalDay s)

/-- The close of the final point (`closes[-1]`, line 204). -/
def currentClose (s : List Point) : ℚ := ((s.getLast?).getD default).close

/-- Badge vertical center, lines 219-231: the padded y-limits leave
`space_above` and `space_below` around the final close; the center sits
halfway into the larger side. -/
def badgeCenterY (s : List Point) : ℚ :=
  let y := currentClose s
  let spaceAbove := yMax s + yRange s / 10 - y
  let spaceBelow := y - (yMin s - yRange s / 10)
  if spaceBelow < spaceAbove then y + spaceAbove / 2 else y - spaceBelow / 2

/-- The badge construction of lines 204-271.  `None` when the series has at
most one row (line 208) or no row of an earlier calendar day exists
(line 212); otherwise the reference is the close of the last earlier-day row,
`price_increased = current >= reference` picks color and text ordering, and
the `Circle` of lines 234-244 fixes the geometry. -/
def makeBadge (s : List Point) : Option Badge :=
  match s.getLast? with
  | none => none
  | some lastP =>
    if 1 < s.length then
      match (prevDayPoints s).getLast? with
      | none => none
      | some refP =>
        let inc := decide (refP.close ≤ lastP.close)
        some
          { priceIncreased := inc
            color := if inc then upColor else downColor
            order := if inc then TextOrder.arrowAboveDateBelow
                     else TextOrder.dateAboveArrowBelow
            refPrice := refP.close
            centerX := (s.length : ℚ) - 15
            centerY := badgeCenterY s
            radius := 8 / 100 * yRange s
            priceText := lastP.close
            dateDay := dayOf lastP.time }
    else none

/-! ### Segments

The source never splits the series: lines 96-109 issue exactly one `ax.plot`
call covering every point, so the whole series is rendered as one contiguous
run — the smoothing spans every time gap. -/

/-- The runs the source actually renders: the entire series as one run. -/
def codeSegments (s : List Point) : List (List Point) :=
  if s = [] then [] else [s]

/-- Gap-aware segmentation as the specification describes it (stated for
comparison with `codeSegments`; the source has no such stage): walk the
series, start a new segment when the time delta to the previous point
exceeds the threshold. -/
def gapSplitAux (threshold : ℤ) : Point → List Point → List Point → List (List Point)
  | _, curSeg, [] => [curSeg.reverse]
  | prev, curSeg, p :: rest =>
    if threshold < p.time - prev.time
    then curSeg.reverse :: gapSplitAux threshold p [p] rest
    else gapSplitAux threshold p (p :: curSeg) rest

/-- Gap-aware segmentation of a whole series (spec comparison definition). -/
def gapSplit (threshold : ℤ) : List Point → List (List Point)
  | [] => []
  | p :: rest => gapSplitAux threshold p [p] rest

/-- The spec's default gap threshold: two hours, in minutes. -/
def gapThresholdDefault : ℤ := 120

/-! ### The composed layout (`generate_chart` as a whole) -/

/-- The geometric layout `generate_chart` composes: the price curve (spline
samples when `len >= 4`, else the raw polyline), label anchors and texts, the
axis limits of lines 186-188, and the optional badge. -/
structure ChartLayout where
  curve : List (ℚ × ℚ)
  anchors : List ℚ
  labelDays : List ℤ
  yLim : ℚ × ℚ
  xLim : ℚ × ℚ
  badge : Option Badge
deriving DecidableEq

/-- The full pure layout computation of `generate_chart` (lines 64-273). -/
def chartLayout (s : List Point) : ChartLayout :=
  { curve :=
      if 4 ≤ s.length then
        (smoothGrid s).map (fun x => (x, splineEval (closes s) x))
      else
        (List.range s.length).map (fun (i : ℕ) => ((i : ℚ), (closes s).getD i 0))
    anchors := codeKeptAnchors s
    labelDays := boundaryDays s
    yLim := (yMin s - yRange s / 10, yMax s + yRange s / 10)
    xLim := (-1, (s.length : ℚ))
    badge := makeBadge s }

/-! ### Physical badge size (for the aspect-correction claim)

Figure geometry of lines 76-82 and 201: 105.6 mm × 44.45 mm figure, axes
spanning the fractions `left=0.08, right=0.95, bottom=0.12, top=0.90`; axis
data ranges from lines 186-188.  A data-space extent `w` maps to physical
size `w / span * plotPhys`. -/

/-- Figure width in inches (`105.6 / 25.4`). -/
def figWidthIn : ℚ := (1056 / 10) / (254 / 10)

/-- Figure height in inches (`44.45 / 25.4`). -/
def figHeightIn : ℚ := (4445 / 100) / (254 / 10)

/-- Physical width of the plotting area: figure width times the horizontal
axes fraction `0.95 - 0.08`. -/
def plotPhysW : ℚ := figWidthIn * (95 / 100 - 8 / 100)

/-- Physical height of the plotting area: figure height times the vertical
axes fraction `0.90 - 0.12`. -/
def plotPhysH : ℚ := figHeightIn * (90 / 100 - 12 / 100)

/-- Data-space width of the x-axis: `xlim = (-1, len(data))` (line 188). -/
def xSpan (s : List Point) : ℚ := (s.length : ℚ) + 1

/-- Data-space height of the y-axis: the padded limits of line 186. -/
def ySpan (s : List Point) : ℚ :=
  yMax s + yRange s / 10 - (yMin s - yRange s / 10)

/-- Physical (rendered) width of the badge. -/
def physBadgeW (s : List Point) (b : Badge) : ℚ :=
  2 * b.radius / xSpan s * plotPhysW

/-- Physical (rendered) height of the badge. -/
def physBadgeH (s : List Point) (b : Badge) : ℚ :=
  2 * b.radius / ySpan s * plotPhysH

/-- Whether the badge renders as a visual circle (equal physical extents);
vacuously true when no badge is produced. -/
def badgeVisuallyCircular (s : List Point) : Bool :=
  match makeBadge s with
  | some b => decide (physBadgeW s b = physBadgeH s b)
  | none => true

/-- The badge width the specification calls for (stated for comparison with
the source's `Circle` geometry): the data-space width whose physical size
equals the badge's physical height, i.e. the height corrected by the plot's
physical aspect ratio and the axis data spans. -/
def claimedCircularWidth (s : List Point) (b : Badge) : ℚ :=
  2 * b.radius / ySpan s * plotPhysH * xSpan s / plotPhysW

/-- Whether the source's badge width matches the aspect-corrected width the
specification describes; vacuously true when no badge is produced. -/
def badgeAspectCorrected (s : List Point) : Bool :=
  match makeBadge s with
  | some b => decide (2 * b.radius = claimedCircularWidth s b)
  | none => true

/-! ### The pipeline driver (`generate`, lines 336-377)

On an empty fetch the source prompts for an alternative identifier and
retries; the retried fetch result enters the model as a parameter.  When both
fetches clean down to nothing, line 362 raises
`ValueError("Unable to fetch data for the provided identifier")`.  Only a
successful run reaches `generate_chart` and `save_chart`. -/

/-- The error kinds relevant to the pipeline.  The specification names an
`EmptyDataError`; the source only ever raises `ValueError` (line 362). -/
inductive ChartError where
  | emptyDataError
  | valueError (msg : String)
deriving DecidableEq

/-- The message of the `ValueError` raised at line 362. -/
def fetchFailMsg : String := "Unable to fetch data for the provided identifier"

/-- The `generate` driver: clean the fetched rows; on failure, clean the
retried fetch (if any); on success compose the layout, otherwise raise.
An `Except.error` result carries no layout and triggers no `save_chart`. -/
def generate (fetched : List RawRow) (retryFetched : Option (List RawRow)) :
    Except ChartError ChartLayout :=
  match fetchStockData fetched with
  | some s => Except.ok (chartLayout s)
  | none =>
    match retryFetched.bind fetchStockData with
    | some s => Except.ok (chartLayout s)
    | none => Except.error (ChartError.valueError fetchFailMsg)

/-! ### Frame mutation model (`generate_chart` lines 88-90)

`generate_chart` receives a caller-owned DataFrame, rebinds `data` to
`data.copy()`, and only then adds the derived `date_pd` and `x_index`
columns.  The store models DataFrame objects addressed by references. -/

/-- A DataFrame as the source sees it: the `date` and `close` columns plus
any derived columns added later. -/
structure Frame where
  date : List ℤ
  close : List (Option ℚ)
  extra : List (String × List ℤ)
deriving DecidableEq

instance : Inhabited Frame := ⟨⟨[], [], []⟩⟩

/-- A heap of DataFrame objects; a reference is an index into it. -/
abbrev Store := List Frame

/-- `data.copy()`: allocate a fresh frame equal to the referenced one and
return its reference. -/
def copyFrame (st : Store) (r : ℕ) : Store × ℕ :=
  (st ++ [st.getD r default], st.length)

/-- `frame[name] = col`: add a derived column to a frame value. -/
def addColumn (f : Frame) (name : String) (col : List ℤ) : Frame :=
  { f with extra := f.extra ++ [(name, col)] }

/-- In-place column assignment on the frame object behind reference `r`. -/
def setColumn (st : Store) (r : ℕ) (name : String) (col : List ℤ) : Store :=
  List.set st r (addColumn (List.getD st r default) name col)

/-- The mutation footprint of `generate_chart` lines 88-90: copy the argument
frame, then add `date_pd` and `x_index` to the copy.  Returns the updated
store and the reference the rest of the function works on. -/
def generateChartStep (st : Store) (r : ℕ) : Store × ℕ :=
  let c := copyFrame st r
  let st1 := c.1
  let r1 := c.2
  let f := List.getD st1 r1 default
  let st2 := setColumn st1 r1 "date_pd" f.date
  let st3 := setColumn st2 r1 "x_index" ((List.range f.date.length).map Int.ofNat)
  (st3, r1)

/-! ### Concrete inputs used by witnesses and counterexamples -/

/-- Two points five hours apart (a 300-minute intraday gap). -/
def sGap : List Point := [⟨0, 1⟩, ⟨300, 2⟩]

/-- Three calendar days with one point each. -/
def sDays3 : List Point := [⟨0, 1⟩, ⟨1440, 2⟩, ⟨2880, 3⟩]

/-- Two calendar days, one point each; the close rises from 100 to 110. -/
def sTwoDay : List Point := [⟨0, 100⟩, ⟨1440, 110⟩]

/-- Four points on one day, closes `1, 2, 4, 3`. -/
def sFour : List Point := [⟨0, 1⟩, ⟨5, 2⟩, ⟨10, 4⟩, ⟨15, 3⟩]

/-- Two raw rows with the same timestamp, both closes present. -/
def rowsDupTime : List RawRow := [⟨0, some 5⟩, ⟨0, some 6⟩]

/-- The cleaned series the duplicate-timestamp rows produce. -/
def ptsDupTime : List Point := [⟨0, 5⟩, ⟨0, 6⟩]

/-- One raw row whose close is missing: nothing survives the cleaning. -/
def rowsAllNaN : List RawRow := [⟨0, none⟩]

/-- Two raw rows in descending time order. -/
def rowsUnsorted : List RawRow := [⟨1500, some 3⟩, ⟨0, some 7⟩]

/-- The cleaned series of `rowsUnsorted`. -/
def ptsUnsorted : List Point := [⟨0, 7⟩, ⟨1500, 3⟩]

/-- The badge `sTwoDay` produces. -/
def badgeTwoDay : Badge :=
  { priceIncreased := true
    color := "#00CC00"
    order := TextOrder.arrowAboveDateBelow
    refPrice := 100
    centerX := -13
    centerY := 209 / 2
    radius := 4 / 5
    priceText := 110
    dateDay := 1 }

/-- A two-row frame used to exercise the mutation model. -/
def frame0 : Frame := ⟨[0, 1440], [some 5, some 6], []⟩

/-- Strictly increasing (hence duplicate-free) timestamps. -/
def strictlyIncTimes : List Point → Bool
  | [] => true
  | [_] => true
  | a :: b :: rest => decide (a.time < b.time) && strictlyIncTimes (b :: rest)

/-! ## Theorems -/

theorem thomasFwd_length (rs : List ℚ) : ∀ cp dp, (thomasFwd rs cp dp).length = rs.length := by
  induction rs with
  | nil => intro cp dp; rfl
  | cons r rs ih => intro cp dp; simpa [thomasFwd] using ih _ _

theorem thomasBack_length (l : List (ℚ × ℚ)) : ∀ m, (thomasBack l m).length = l.length := by
  induction l with
  | nil => intro m; rfl
  | cons cd rest ih =>
    intro m
    obtain ⟨c, d⟩ := cd
    simpa [thomasBack] using ih _

theorem thomasSolve_length (rs : List ℚ) : (thomasSolve rs).length = rs.length := by
  simp [thomasSolve, thomasBack_length, thomasFwd_length]

theorem rhsList_length (ys : List ℚ) : (rhsList ys).length = ys.length - 2 := by
  simp [rhsList]

theorem secondDerivs_getD_zero (ys : List ℚ) : (secondDerivs ys).getD 0 0 = 0 := rfl

theorem secondDerivs_getD_last (ys : List ℚ) (h : 2 ≤ ys.length) :
    (secondDerivs ys).getD (ys.length - 1) 0 = 0 := by
  have hl : (thomasSolve (rhsList ys)).length = ys.length - 2 := by
    rw [thomasSolve_length, rhsList_length]
  have h1 : ys.length - 1 = (ys.length - 2) + 1 := by omega
  rw [secondDerivs, h1, List.getD_cons_succ, List.getD_append_right _ _ _ _ hl.le, hl,
    Nat.sub_self]
  rfl

theorem segIdx_nat (n k : ℕ) : segIdx n (k : ℚ) = min k (n - 2) := by
  have h1 : (⌊(k : ℚ)⌋) = (k : ℤ) := Int.floor_natCast k
  have h2 : max ((k : ℤ)) 0 = (k : ℤ) := max_eq_left (Int.ofNat_nonneg k)
  simp [segIdx, h1, h2]

theorem splineEval_knot (ys : List ℚ) (h2 : 2 ≤ ys.length) (k : ℕ) (hk : k < ys.length) :
    splineEval ys (k : ℚ) = ys.getD k 0 := by
  by_cases hk1 : k ≤ ys.length - 2
  · have hseg : segIdx ys.length (k : ℚ) = k := by rw [segIdx_nat]; omega
    rw [splineEval, hseg]
    ring
  · have hk' : k = ys.length - 1 := by omega
    have hseg : segIdx ys.length (k : ℚ) = ys.length - 2 := by rw [segIdx_nat]; omega
    have hsucc : ys.length - 2 + 1 = ys.length - 1 := by omega
    have ht : (k : ℚ) - ((ys.length - 2 : ℕ) : ℚ) = 1 := by
      rw [hk']
      push_cast [Nat.cast_sub (by omega : 1 ≤ ys.length), Nat.cast_sub (by omega : 2 ≤ ys.length)]
      ring
    rw [splineEval, hseg, hsucc, ht, hk']
    ring

/-- Claim C3, counterexample: the source renders `sGap` — two points five
hours apart — as a single run, where the specified gap segmentation at the
default two-hour threshold would yield two segments; the one rendered curve
spans the gap. -/
theorem c3_counterexample :
    codeSegments sGap ≠ gapSplit gapThresholdDefault sGap
    ∧ gapSplit gapThresholdDefault sGap = [[⟨0, 1⟩], [⟨300, 2⟩]]
    ∧ (chartLayout sGap).curve = [(0, 1), (1, 2)] := by decide

/-- Claim C3, amended: the renderer never splits the series — the whole
series is one segment regardless of time gaps, and that single segment
trivially partitions the series (points, order preserved; segment
non-empty); smoothing is applied once across the whole series. -/
theorem c3_single_segment (s : List Point) (h : s ≠ []) :
    (codeSegments s).length = 1
    ∧ (codeSegments s).flatten = s
    ∧ [] ∉ codeSegments s := by
  simp [codeSegments, h]

/-- Claim C3, witness at `sGap`. -/
theorem c3_witness :
    sGap ≠ []
    ∧ (codeSegments sGap).length = 1
    ∧ (codeSegments sGap).flatten = sGap
    ∧ [] ∉ codeSegments sGap :=
  ⟨by decide, c3_single_segment sGap (by decide)⟩

/-- Claim C5, counterexample: on a four-point series the evaluation grid of
line 98 has `len * 5 = 20` entries, not `5 × (n - 1) + 1 = 16`. -/
theorem c5_counterexample :
    (smoothGrid sFour).length ≠ oversampleFactor * (sFour.length - 1) + 1 := by decide

theorem linspace_getD (a b : ℚ) (m i : ℕ) (h : i < m) :
    (linspace a b m).getD i 0 = a + (b - a) * (i : ℚ) / ((m : ℚ) - 1) := by
  have hlen : (linspace a b m).length = m := by
    simp only [linspace, List.length_map, List.length_range]
  rw [List.getD_eq_getElem _ _ (by rw [hlen]; exact h)]
  simp only [linspace, List.getElem_map, List.getElem_range]

/-- Claim C5, amended: for a series with `n ≥ 4` points the spline is
evaluated at exactly `n × oversample_factor` (not `oversample_factor ×
(n - 1) + 1`) uniformly spaced index values spanning `[0, n - 1]`, both
endpoints included. -/
theorem c5_grid (s : List Point) (h : 4 ≤ s.length) :
    (smoothGrid s).length = s.length * oversampleFactor
    ∧ (smoothGrid s).getD 0 0 = 0
    ∧ (smoothGrid s).getD (s.length * oversampleFactor - 1) 0 = (s.length : ℚ) - 1
    ∧ ∀ i, i + 1 < s.length * oversampleFactor →
        (smoothGrid s).getD (i + 1) 0 - (smoothGrid s).getD i 0
          = ((s.length : ℚ) - 1) / ((s.length * oversampleFactor : ℕ) - 1) := by
  have hm : 20 ≤ s.length * oversampleFactor := by
    have := Nat.mul_le_mul_right oversampleFactor h
    simpa [oversampleFactor] using this
  refine ⟨by simp only [smoothGrid, linspace, List.length_map, List.length_range], ?_, ?_, ?_⟩
  · rw [smoothGrid, linspace_getD _ _ _ _ (by omega)]
    simp
  · rw [smoothGrid, linspace_getD _ _ _ _ (by omega)]
    have h20 : (20 : ℚ) ≤ ((s.length * oversampleFactor : ℕ) : ℚ) := by exact_mod_cast hm
    have hne : ((s.length * oversampleFactor : ℕ) : ℚ) - 1 ≠ 0 := by
      intro hc
      linarith
    rw [Nat.cast_sub (by omega : 1 ≤ s.length * oversampleFactor), Nat.cast_one]
    rw [zero_add, sub_zero, mul_div_assoc, div_self hne, mul_one]
  · intro i hi
    rw [smoothGrid, linspace_getD _ _ _ _ (by omega), linspace_getD _ _ _ _ (by omega)]
    simp only [zero_add, sub_zero]
    rw [div_sub_div_same]
    congr 1
    push_cast
    ring

/-- Claim C5, witness at `sFour`. -/
theorem c5_witness :
    4 ≤ sFour.length
    ∧ ((smoothGrid sFour).length = sFour.length * oversampleFactor
        ∧ (smoothGrid sFour).getD 0 0 = 0
        ∧ (smoothGrid sFour).getD (sFour.length * oversampleFactor - 1) 0
            = (sFour.length : ℚ) - 1
        ∧ ∀ i, i + 1 < sFour.length * oversampleFactor →
            (smoothGrid sFour).getD (i + 1) 0 - (smoothGrid sFour).getD i 0
              = ((sFour.length : ℚ) - 1) / ((sFour.length * oversampleFactor : ℕ) - 1)) :=
  ⟨by decide, c5_grid sFour (by decide)⟩

/-- Claim C8: the layout computation is a pure function of the series — two
invocations on equal inputs yield equal layouts, equal spline second
derivatives (hence equal piecewise coefficients), and equal evaluation
grids. -/
theorem c8_deterministic (s1 s2 : List Point) (h : s1 = s2) :
    chartLayout s1 = chartLayout s2
    ∧ secondDerivs (closes s1) = secondDerivs (closes s2)
    ∧ smoothGrid s1 = smoothGrid s2 := by
  subst h
  exact ⟨rfl, rfl, rfl⟩

/-- Claim C8, witness: two renders of `sFour`. -/
theorem c8_witness :
    chartLayout sFour = chartLayout sFour
    ∧ secondDerivs (closes sFour) = secondDerivs (closes sFour)
    ∧ smoothGrid sFour = smoothGrid sFour :=
  c8_deterministic sFour sFour rfl

/-- Claim C2: for a series with at least four points the drawn curve is the
natural cubic spline over the `(index, close)` pairs evaluated on the
oversampled grid; the spline reproduces every original close exactly (true
interpolation, exact in this rational model), and its second derivative
vanishes at both endpoints (the natural boundary condition). -/
theorem c2_spline_interpolates (s : List Point) (h : 4 ≤ s.length) :
    (chartLayout s).curve = (smoothGrid s).map (fun x => (x, splineEval (closes s) x))
    ∧ (∀ k, k < s.length → splineEval (closes s) (k : ℚ) = (closes s).getD k 0)
    ∧ splineSecondDeriv (closes s) 0 = 0
    ∧ splineSecondDeriv (closes s) ((s.length : ℚ) - 1) = 0 := by
  have hcl : (closes s).length = s.length := List.length_map _ _
  refine ⟨by simp [chartLayout, h], ?_, ?_, ?_⟩
  · intro k hk
    exact splineEval_knot (closes s) (by omega) k (by omega)
  · have hseg : segIdx (closes s).length (0 : ℚ) = 0 := by
      have h0 : ((0 : ℕ) : ℚ) = (0 : ℚ) := Nat.cast_zero
      rw [← h0, segIdx_nat]
      omega
    simp only [splineSecondDeriv, hseg, secondDerivs_getD_zero]
    push_cast
    ring
  · have hc2 : 2 ≤ (closes s).length := by omega
    have hcast : ((s.length : ℚ) - 1) = ((s.length - 1 : ℕ) : ℚ) := by
      rw [Nat.cast_sub (by omega)]
      simp
    have hseg : segIdx (closes s).length ((s.length : ℚ) - 1) = (closes s).length - 2 := by
      rw [hcast, segIdx_nat]
      omega
    have h21 : (closes s).length - 2 + 1 = (closes s).length - 1 := by omega
    have ht : ((s.length : ℚ) - 1) - (((closes s).length - 2 : ℕ) : ℚ) = 1 := by
      rw [hcl, Nat.cast_sub (by omega)]
      push_cast
      ring
    simp only [splineSecondDeriv, hseg, h21, ht]
    rw [secondDerivs_getD_last (closes s) hc2]
    ring

/-- Claim C2, witness at `sFour`. -/
theorem c2_witness :
    4 ≤ sFour.length
    ∧ ((chartLayout sFour).curve
          = (smoothGrid sFour).map (fun x => (x, splineEval (closes sFour) x))
        ∧ (∀ k, k < sFour.length →
            splineEval (closes sFour) (k : ℚ) = (closes sFour).getD k 0)
        ∧ splineSecondDeriv (closes sFour) 0 = 0
        ∧ splineSecondDeriv (closes sFour) ((sFour.length : ℚ) - 1) = 0) :=
  ⟨by decide, c2_spline_interpolates sFour (by decide)⟩

/-- Claim C9, counterexample: two raw rows share the timestamp `0`; the
cleaning stage keeps both, so the resulting series' timestamps are not
strictly increasing and a duplicate timestamp remains. -/
theorem c9_counterexample :
    fetchStockData rowsDupTime = some ptsDupTime ∧ strictlyIncTimes ptsDupTime = false := by
  decide

/-- Claim C9, amended: the cleaned series is sorted by non-decreasing (not
strictly increasing) timestamp — duplicate timestamps are retained — is
non-empty, and the plotting indices assigned to it are `0 … n-1` in order. -/
theorem c9_sorted_indices (rows : List RawRow) (s : List Point)
    (h : fetchStockData rows = some s) :
    List.Pairwise timeLE s
    ∧ s ≠ []
    ∧ ∀ i, i < s.length → (xIndexColumn s).getD i 0 = i := by
  simp only [fetchStockData] at h
  split at h
  · exact absurd h (by simp)
  · rename_i hemp
    injection h with h'
    subst h'
    refine ⟨List.sorted_insertionSort timeLE _, by simpa using hemp, ?_⟩
    intro i hi
    rw [xIndexColumn, List.getD_eq_getElem _ _ (by simpa using hi), List.getElem_range]

/-- Claim C9, witness: unsorted input rows come out sorted and indexed. -/
theorem c9_witness :
    fetchStockData rowsUnsorted = some ptsUnsorted
    ∧ (List.Pairwise timeLE ptsUnsorted
        ∧ ptsUnsorted ≠ []
        ∧ ∀ i, i < ptsUnsorted.length → (xIndexColumn ptsUnsorted).getD i 0 = i) :=
  ⟨by decide, c9_sorted_indices rowsUnsorted ptsUnsorted (by decide)⟩

/-- Claim C7, counterexample: when every close is missing the pipeline fails
with `ValueError("Unable to fetch data for the provided identifier")` — there
is no `EmptyDataError` anywhere in the source. -/
theorem c7_counterexample :
    generate rowsAllNaN none = Except.error (ChartError.valueError fetchFailMsg)
    ∧ ChartError.valueError fetchFailMsg ≠ ChartError.emptyDataError :=
  ⟨rfl, fun hc => ChartError.noConfusion hc⟩

/-- Claim C7, amended: if zero valid points remain after dropping
missing-close rows (and the retried fetch also yields nothing), the pipeline
fails with `ValueError`, and on failure no layout is emitted (so no image is
produced). -/
theorem c7_value_error (rows : List RawRow) (retry : Option (List RawRow))
    (h1 : fetchStockData rows = none) (h2 : retry.bind fetchStockData = none) :
    generate rows retry = Except.error (ChartError.valueError fetchFailMsg)
    ∧ ∀ l, generate rows retry ≠ Except.ok l := by
  have hg : generate rows retry = Except.error (ChartError.valueError fetchFailMsg) := by
    simp only [generate, h1, h2]
  exact ⟨hg, fun l hc => by rw [hg] at hc; exact Except.noConfusion hc⟩

/-- Claim C7, witness at `rowsAllNaN` with no retry data. -/
theorem c7_witness :
    fetchStockData rowsAllNaN = none
    ∧ (none : Option (List RawRow)).bind fetchStockData = none
    ∧ (generate rowsAllNaN none = Except.error (ChartError.valueError fetchFailMsg)
        ∧ ∀ l, generate rowsAllNaN none ≠ Except.ok l) :=
  ⟨rfl, rfl, c7_value_error rowsAllNaN none rfl rfl⟩

theorem anchorsAux_length (n : ℕ) : ∀ l : List ℕ, (anchorsAux n l).length = l.length
  | [] => rfl
  | [_] => rfl
  | _ :: b' :: rest => by simpa [anchorsAux] using anchorsAux_length n (b' :: rest)

theorem boundariesAux_cons (i : ℕ) (cur : Option ℤ) (d : ℤ) (rest : List ℤ) :
    boundariesAux i cur (d :: rest)
      = if cur = some d then boundariesAux (i + 1) (some d) rest
        else (i, d) :: boundariesAux (i + 1) (some d) rest := rfl

theorem boundariesAux_last_mem :
    ∀ (ds : List ℤ) (i : ℕ) (cur : Option ℤ) (d : ℤ), ds.getLast? = some d →
      d ∈ (boundariesAux i cur ds).map Prod.snd
      ∨ (boundariesAux i cur ds = [] ∧ cur = some d)
  | [], _, _, _, h => by simp at h
  | [x], i, cur, d, h => by
    rw [List.getLast?_singleton, Option.some.injEq] at h
    subst h
    by_cases hc : cur = some x
    · right
      rw [boundariesAux_cons, if_pos hc]
      exact ⟨rfl, hc⟩
    · left
      rw [boundariesAux_cons, if_neg hc]
      simp
  | x :: y :: rest, i, cur, d, h => by
    rw [List.getLast?_cons_cons] at h
    rcases boundariesAux_last_mem (y :: rest) (i + 1) (some x) d h with hmem | ⟨hemp, hcur⟩
    · left
      by_cases hc : cur = some x
      · rw [boundariesAux_cons, if_pos hc]
        exact hmem
      · rw [boundariesAux_cons, if_neg hc, List.map_cons]
        exact List.mem_cons_of_mem _ hmem
    · have hxd : x = d := Option.some.inj hcur
      subst hxd
      by_cases hc : cur = some x
      · right
        rw [boundariesAux_cons, if_pos hc]
        exact ⟨hemp, hc⟩
      · left
        rw [boundariesAux_cons, if_neg hc, List.map_cons]
        exact List.mem_cons_self _ _

theorem dayBoundaryList_ne_nil (s : List Point) (h : s ≠ []) : dayBoundaryList s ≠ [] := by
  rcases s with _ | ⟨p, rest⟩
  · exact absurd rfl h
  · simp [dayBoundaryList, days, boundariesAux]

theorem finalDay_mem_boundaryDays (s : List Point) (h : s ≠ []) :
    finalDay s ∈ boundaryDays s := by
  have hgl : s.getLast? = some (s.getLast h) := List.getLast?_eq_getLast s h
  have hfd : finalDay s = dayOf (s.getLast h).time := by rw [finalDay, hgl]; rfl
  have hdl : (days s).getLast? = some (dayOf (s.getLast h).time) := by
    rw [days, List.getLast?_map, hgl]; rfl
  rcases boundariesAux_last_mem (days s) 0 none (dayOf (s.getLast h).time) hdl with
    hmem | ⟨_, hcur⟩
  · rw [hfd]
    exact hmem
  · exact Option.noConfusion hcur

/-- Claim C4, counterexample: on a three-day series the source keeps all
three day labels (anchors `0.5, 1.5, 2`), but the collision filter the claim
describes, at `min_label_distance = 2`, would drop the middle one — the code
output differs from the claimed filtered output. -/
theorem c4_counterexample :
    codeKeptAnchors sDays3 = [1 / 2, 3 / 2, 2]
    ∧ collisionFilter 2 (labelAnchors sDays3) = [1 / 2, 2]
    ∧ codeKeptAnchors sDays3 ≠ collisionFilter 2 (labelAnchors sDays3) := by
  have h1 : codeKeptAnchors sDays3 = [1 / 2, 3 / 2, 2] := by
    norm_num [codeKeptAnchors, labelAnchors, dayBoundaryList, days, sDays3, dayOf,
      boundariesAux, anchorsAux]
  have h2 : collisionFilter 2 (labelAnchors sDays3) = [1 / 2, 2] := by
    have ha : labelAnchors sDays3 = [1 / 2, 3 / 2, 2] := h1
    rw [ha]
    norm_num [collisionFilter, collisionFilterAux]
  refine ⟨h1, h2, ?_⟩
  rw [h1, h2]
  simp

/-- Claim C4, amended: the labeler applies no collision avoidance — one
label per day boundary is computed and every one of them is kept (the kept
list has one anchor per boundary); the result is nevertheless non-empty for
any non-empty series and always contains the final calendar day's label. -/
theorem c4_all_labels_kept (s : List Point) (h : s ≠ []) :
    (codeKeptAnchors s).length = (dayBoundaryList s).length
    ∧ codeKeptAnchors s ≠ []
    ∧ finalDay s ∈ boundaryDays s := by
  have hlen : (codeKeptAnchors s).length = (dayBoundaryList s).length := by
    rw [codeKeptAnchors, labelAnchors, anchorsAux_length, List.length_map]
  refine ⟨hlen, ?_, finalDay_mem_boundaryDays s h⟩
  intro hnil
  apply dayBoundaryList_ne_nil s h
  apply List.length_eq_zero.mp
  rw [← hlen, hnil]
  rfl

/-- Claim C4, witness at `sDays3`. -/
theorem c4_witness :
    sDays3 ≠ []
    ∧ ((codeKeptAnchors sDays3).length = (dayBoundaryList sDays3).length
        ∧ codeKeptAnchors sDays3 ≠ []
        ∧ finalDay sDays3 ∈ boundaryDays sDays3) :=
  ⟨by decide, c4_all_labels_kept sDays3 (by decide)⟩

/-- Claim C6, counterexample: `sTwoDay` produces a badge, yet that badge is
not visually circular (its physical width and height differ), and its
data-space width is not the aspect-corrected width the specification
describes — the source draws a `Circle` in data coordinates with a single
radius, no aspect correction. -/
theorem makeBadge_sTwoDay_eq : makeBadge sTwoDay = some badgeTwoDay := by
  norm_num [makeBadge, sTwoDay, badgeTwoDay, prevDayPoints, finalDay, dayOf, badgeCenterY,
    currentClose, yMax, yMin, yRange, closes, upColor, Badge.mk.injEq]

theorem c6_counterexample :
    makeBadge sTwoDay = some badgeTwoDay
    ∧ badgeVisuallyCircular sTwoDay = false
    ∧ badgeAspectCorrected sTwoDay = false := by
  refine ⟨makeBadge_sTwoDay_eq, ?_, ?_⟩
  · simp only [badgeVisuallyCircular, makeBadge_sTwoDay_eq]
    rw [decide_eq_false_iff_not]
    norm_num [physBadgeW, physBadgeH, xSpan, ySpan, plotPhysW, plotPhysH, figWidthIn,
      figHeightIn, yMax, yMin, yRange, closes, sTwoDay, badgeTwoDay]
  · simp only [badgeAspectCorrected, makeBadge_sTwoDay_eq]
    rw [decide_eq_false_iff_not]
    norm_num [claimedCircularWidth, xSpan, ySpan, plotPhysW, plotPhysH, figWidthIn,
      figHeightIn, yMax, yMin, yRange, closes, sTwoDay, badgeTwoDay]

/-- Claim C6, amended: whenever a badge is produced it is a circle in data
coordinates — a single radius equal to 8% of the close range, used for both
axes — centered 15 index units left of the series end at the free-space
midpoint; no aspect-ratio correction is applied, so the rendered badge is in
general not visually circular. -/
theorem c6_badge_circle (s : List Point) (b : Badge) (h : makeBadge s = some b) :
    b.radius = 8 / 100 * yRange s
    ∧ b.centerX = (s.length : ℚ) - 15
    ∧ b.centerY = badgeCenterY s := by
  by_cases hlen : 1 < s.length
  · rcases hgl : s.getLast? with _ | lastP
    · simp only [makeBadge, hgl] at h
      exact Option.noConfusion h
    · rcases hpl : (prevDayPoints s).getLast? with _ | refP
      · simp only [makeBadge, hgl, if_pos hlen, hpl] at h
        exact Option.noConfusion h
      · simp only [makeBadge, hgl, if_pos hlen, hpl, Option.some.injEq] at h
        subst h
        exact ⟨rfl, rfl, rfl⟩
  · rcases hgl : s.getLast? with _ | lastP
    · simp only [makeBadge, hgl] at h
      exact Option.noConfusion h
    · simp only [makeBadge, hgl, if_neg hlen] at h
      exact Option.noConfusion h

/-- Claim C6, witness at `sTwoDay`. -/
theorem c6_witness :
    makeBadge sTwoDay = some badgeTwoDay
    ∧ (badgeTwoDay.radius = 8 / 100 * yRange sTwoDay
        ∧ badgeTwoDay.centerX = (sTwoDay.length : ℚ) - 15
        ∧ badgeTwoDay.centerY = badgeCenterY sTwoDay) :=
  ⟨makeBadge_sTwoDay_eq, c6_badge_circle sTwoDay badgeTwoDay makeBadge_sTwoDay_eq⟩

theorem getD_set_ne (l : List Frame) (i j : ℕ) (hij : i ≠ j) (a d : Frame) :
    (l.set i a).getD j d = l.getD j d := by
  by_cases hj : j < l.length
  · rw [List.getD_eq_getElem _ _ (by simpa using hj), List.getD_eq_getElem _ _ hj]
    exact List.getElem_set_ne hij _
  · rw [List.getD_eq_default _ _ (by simpa using Nat.le_of_not_lt hj),
      List.getD_eq_default _ _ (Nat.le_of_not_lt hj)]

/-- Claim C10: chart generation leaves the caller's frame unchanged — the
copy made at line 88 receives the derived `date_pd` and `x_index` columns,
and the copy is a fresh object (its reference is the old store length, never
the argument's reference). -/
theorem c10_caller_frame_unchanged (st : Store) (r : ℕ) (h : r < st.length) :
    List.getD (generateChartStep st r).1 r default = List.getD st r default
    ∧ (generateChartStep st r).2 = st.length := by
  have hne : st.length ≠ r := ne_of_gt h
  refine ⟨?_, rfl⟩
  simp only [generateChartStep, copyFrame, setColumn]
  rw [getD_set_ne _ _ _ hne, getD_set_ne _ _ _ hne, List.getD_append _ _ _ _ h]

/-- Claim C10, witness on a one-frame store. -/
theorem c10_witness :
    0 < ([frame0] : Store).length
    ∧ (List.getD (generateChartStep [frame0] 0).1 0 default = List.getD [frame0] 0 default
        ∧ (generateChartStep [frame0] 0).2 = ([frame0] : Store).length) :=
  ⟨by decide, c10_caller_frame_unchanged [frame0] 0 (by decide)⟩

/-- Claim C1: when the series has a point of a strictly earlier calendar day
than its final point, a badge is produced whose reference price is the close
of the last such point; reference above the current close yields the `down`
direction with date-above/arrow-below ordering and the down color, reference
at or below the current close yields the `up` direction with
arrow-above/date-below ordering and the up color.  When no earlier-day point
exists, no badge is produced (a valid result, not an error). -/
theorem c1_price_indicator (s : List Point) :
    (prevDayPoints s ≠ [] →
      ∃ b, makeBadge s = some b
        ∧ some b.refPrice = ((prevDayPoints s).getLast?).map Point.close
        ∧ (currentClose s < b.refPrice →
            b.priceIncreased = false
            ∧ b.order = TextOrder.dateAboveArrowBelow
            ∧ b.color = downColor)
        ∧ (b.refPrice ≤ currentClose s →
            b.priceIncreased = true
            ∧ b.order = TextOrder.arrowAboveDateBelow
            ∧ b.color = upColor))
    ∧ (prevDayPoints s = [] → makeBadge s = none) := by
  constructor
  · intro hprev
    have hs : s ≠ [] := by
      intro hnil
      rw [hnil] at hprev
      exact hprev rfl
    obtain ⟨refP, hpl⟩ : ∃ refP, (prevDayPoints s).getLast? = some refP := by
      rcases hq : (prevDayPoints s).getLast? with _ | refP
      · exact absurd (List.getLast?_eq_none_iff.mp hq) hprev
      · exact ⟨refP, rfl⟩
    obtain ⟨lastP, hgl⟩ : ∃ p, s.getLast? = some p := by
      rcases hq : s.getLast? with _ | p
      · exact absurd (List.getLast?_eq_none_iff.mp hq) hs
      · exact ⟨p, rfl⟩
    have hlen : 1 < s.length := by
      rcases s with _ | ⟨p, rest⟩
      · exact absurd rfl hs
      · rcases rest with _ | ⟨q, rest'⟩
        · exfalso
          apply hprev
          simp [prevDayPoints, finalDay]
        · simp only [List.length_cons]
          omega
    have hcur : currentClose s = lastP.close := by
      rw [currentClose, hgl]
      rfl
    by_cases hc : refP.close ≤ lastP.close
    · refine ⟨⟨true, upColor, TextOrder.arrowAboveDateBelow, refP.close,
        (s.length : ℚ) - 15, badgeCenterY s, 8 / 100 * yRange s, lastP.close,
        dayOf lastP.time⟩, ?_, ?_, ?_, ?_⟩
      · simp [makeBadge, hgl, if_pos hlen, hpl, hc]
      · simp [hpl]
      · intro hlt
        rw [hcur] at hlt
        exact absurd hc (not_le.mpr hlt)
      · intro _
        exact ⟨rfl, rfl, rfl⟩
    · refine ⟨⟨false, downColor, TextOrder.dateAboveArrowBelow, refP.close,
        (s.length : ℚ) - 15, badgeCenterY s, 8 / 100 * yRange s, lastP.close,
        dayOf lastP.time⟩, ?_, ?_, ?_, ?_⟩
      · simp [makeBadge, hgl, if_pos hlen, hpl, hc]
      · simp [hpl]
      · intro _
        exact ⟨rfl, rfl, rfl⟩
      · intro hle
        rw [hcur] at hle
        exact absurd hle hc
  · intro hemp
    rcases hgl : s.getLast? with _ | lastP
    · simp [makeBadge, hgl]
    · by_cases hlen : 1 < s.length
      · simp [makeBadge, hgl, if_pos hlen, hemp]
      · simp [makeBadge, hgl, if_neg hlen]

/-- Claim C1, witness at `sTwoDay` (an earlier-day point exists). -/
theorem c1_witness :
    prevDayPoints sTwoDay ≠ []
    ∧ ∃ b, makeBadge sTwoDay = some b
        ∧ some b.refPrice = ((prevDayPoints sTwoDay).getLast?).map Point.close
        ∧ (currentClose sTwoDay < b.refPrice →
            b.priceIncreased = false
            ∧ b.order = TextOrder.dateAboveArrowBelow
            ∧ b.color = downColor)
        ∧ (b.refPrice ≤ currentClose sTwoDay →
            b.priceIncreased = true
            ∧ b.order = TextOrder.arrowAboveDateBelow
            ∧ b.color = upColor) :=
  ⟨by decide, (c1_price_indicator sTwoDay).1 (by decide)⟩

end StockChart
